import Mathlib

/-!
Verification of the SmartSpendAI statement-import pipeline and its frontend
import/analytics components, as a shallow embedding in Lean 4.

Frontend components (`ImportTransactions.js`, the Analytics `LineChart`) are
translated directly from the JavaScript source.  The backend importer
(`backend/app`: row normalization, date parsing, amount resolution,
categorization, duplicate detection, result assembly) is not part of the
source tree available here, so it is modelled from the specification text;
every such definition is marked `Modelled from the spec:` in its doc comment.

JavaScript strings are embedded as `List Char`; JS numbers appearing in the
chart code as `ℚ` (exact arithmetic); fallible steps return `Option`/`Except`.
-/

namespace SmartSpend

/-! ## JS string helpers (for `ImportTransactions.js handleFileSelect`) -/

/-- Auxiliary for `jsLastIndexOf`: index of the last occurrence of `c`, if any. -/
def lastIdxAux (c : Char) : List Char → Option Nat
  | [] => none
  | a :: rest =>
    match lastIdxAux c rest with
    | some i => some (i + 1)
    | none => if a = c then some 0 else none

/-- JS `String.prototype.lastIndexOf` for a single character: the index of the
last occurrence, or `-1` when the character does not occur. -/
def jsLastIndexOf (s : List Char) (c : Char) : Int :=
  match lastIdxAux c s with
  | some i => (i : Int)
  | none => -1

/-- JS `String.prototype.substring(i)` with a single argument: a negative
start index is clamped to `0`. -/
def jsSubstringFrom (s : List Char) (i : Int) : List Char :=
  s.drop i.toNat

/-- JS `String.prototype.toLowerCase`, per character. -/
def toLowerList (s : List Char) : List Char :=
  s.map Char.toLower

/-! ## `handleFileSelect` (ImportTransactions.js, lines 45-60) -/

/-- The extension allow-list `validTypes = ['.csv', '.xlsx', '.xls']`. -/
def validTypes : List (List Char) :=
  [".csv".data, ".xlsx".data, ".xls".data]

/-- `file.name.toLowerCase().substring(file.name.lastIndexOf('.'))`:
the lower-cased tail of the file name starting at the last dot (the whole
lower-cased name when there is no dot, since `substring(-1)` clamps to 0). -/
def fileExtension (name : List Char) : List Char :=
  jsSubstringFrom (toLowerList name) (jsLastIndexOf name '.')

/-- `validTypes.includes(fileExtension)`: the acceptance test of
`handleFileSelect`.  It inspects only the file name. -/
def acceptFile (name : List Char) : Bool :=
  validTypes.contains (fileExtension name)

/-- The component state touched by `handleFileSelect`. -/
structure SelectState where
  selectedFile : Option (List Char)
  importResultCleared : Bool
  deriving DecidableEq, Repr

/-- `handleFileSelect`: on an accepted file, `setSelectedFile(file)` and
`setImportResult(null)`; on a rejected file an alert fires and the state is
left unchanged (early `return`). -/
def handleFileSelect (st : SelectState) (name : List Char) : SelectState :=
  if acceptFile name then
    { selectedFile := some name, importResultCleared := true }
  else
    st

/-! ## `downloadSampleCSV` (ImportTransactions.js, lines 113-128) -/

/-- The literal `sampleData` template string of `downloadSampleCSV`. -/
def sampleData : String :=
  "Date,Amount,Description,Merchant,Payment Method,Category\n2024-01-15,250.00,Lunch at restaurant,Pizza Hut,UPI,Food & Dining\n2024-01-16,50.00,Metro travel,Delhi Metro,Card,Transportation\n2024-01-17,1200.00,Grocery shopping,BigBazaar,UPI,Shopping\n2024-01-18,150.00,Mobile recharge,Airtel,UPI,Bills & Utilities\n2024-01-19,45000.00,Monthly salary,Company ABC,Bank Transfer,Income"

/-- First line of a CSV text (the header row). -/
def csvFirstLine (s : String) : List Char :=
  s.data.takeWhile (fun c => c ≠ '\n')

/-- Split a character list on a separator character. -/
def splitChar (sep : Char) : List Char → List (List Char)
  | [] => [[]]
  | c :: rest =>
    let r := splitChar sep rest
    if c = sep then
      [] :: r
    else
      match r with
      | h :: t => (c :: h) :: t
      | [] => [[c]]

/-- The header row of the sample CSV, split on commas. -/
def sampleHeader : List (List Char) :=
  splitChar ',' (csvFirstLine sampleData)

/-- The bank-statement header set named by the spec. -/
def bankHeaders : List (List Char) :=
  ["Tran Date".data, "Chq No".data, "Particulars".data, "Debit".data,
   "Credit".data, "Balance".data, "Init. Br".data]

/-- The generic header set named by the spec. -/
def genericHeaders : List (List Char) :=
  ["Date".data, "Amount".data, "Description".data, "Merchant".data,
   "Category".data, "Payment Method".data]

/-! ## `handleImport` (ImportTransactions.js, lines 62-102) -/

/-- The `ImportResult` JSON shape displayed by the import page. -/
structure ImportResult where
  total_rows : Nat
  successful_imports : Nat
  failed_imports : Nat
  errors : List String
  duplicate_count : Nat
  imported_transactions : List (List Char)
  deriving DecidableEq, Repr

/-- The fixed fallback error text of the `catch` branch. -/
def importFailedText : String := "Import failed. Please try again."

/-- `error.response?.data?.detail || 'Import failed. Please try again.'`:
JS `||` falls through on a missing or falsy (empty) detail string. -/
def jsOrFallback (detail : Option String) : String :=
  match detail with
  | some d => if d = "" then importFailedText else d
  | none => importFailedText

/-- The `ImportResult` synthesized by the `catch` branch of `handleImport`. -/
def errorImportResult (detail : Option String) : ImportResult :=
  { total_rows := 0
    successful_imports := 0
    failed_imports := 1
    errors := [jsOrFallback detail]
    duplicate_count := 0
    imported_transactions := [] }

/-- Outcome of the HTTP call made by `handleImport`: a parsed `ImportResult`
on success, or a rejection carrying the server's optional `detail` string. -/
inductive ImportResponse where
  | ok (r : ImportResult)
  | err (detail : Option String)

/-- `handleImport` after the HTTP call: the displayed result together with
whether `onImportComplete` is invoked (`successful_imports > 0` on success,
never on a rejected request). -/
def handleImportOutcome : ImportResponse → ImportResult × Bool
  | .ok r => (r, decide (0 < r.successful_imports))
  | .err d => (errorImportResult d, false)

/-! ## The Analytics `LineChart` (inline SVG chart) -/

/-- One entry of the `trends` data list fed to `LineChart`. -/
structure TrendPoint where
  date : List Char
  amount : ℚ
  deriving DecidableEq, Repr

/-- `Math.max(...points)` over a nonempty list (0 on the empty list, which the
component guards against). -/
def listMax : List ℚ → ℚ
  | [] => 0
  | a :: rest => rest.foldl max a

/-- `Math.min(...points)` over a nonempty list. -/
def listMin : List ℚ → ℚ
  | [] => 0
  | a :: rest => rest.foldl min a

/-- `range = Math.max(1, max - min)`: the vertical-scale divisor. -/
def chartRange (points : List ℚ) : ℚ :=
  max 1 (listMax points - listMin points)

/-- `padding = 20`. -/
def chartPadding : ℚ := 20

/-- `w = Math.max(300, data.length * 36)`. -/
def chartW (len : Nat) : ℚ := max 300 ((len : ℚ) * 36)

/-- `stepX = (w - padding * 2) / Math.max(1, data.length - 1)`. -/
def chartStepX (len : Nat) : ℚ :=
  (chartW len - chartPadding * 2) / max 1 ((len : ℚ) - 1)

/-- The `xy` array: one `(x, y)` pair per data point. -/
def xyPoints (height : ℚ) (data : List TrendPoint) : List (ℚ × ℚ) :=
  data.enum.map fun p =>
    (chartPadding + (p.1 : ℚ) * chartStepX data.length,
     chartPadding +
       ((listMax (data.map TrendPoint.amount) - p.2.amount) /
           chartRange (data.map TrendPoint.amount)) *
         (height - chartPadding * 2))

/-- `idx = Math.round(ratio * (data.length - 1))` of `handleMouseMove`, for
whatever ratio the mouse geometry produced. -/
def hoverIdx (len : Nat) (r : ℚ) : Int :=
  round (r * ((len : ℚ) - 1))

/-- `clamped = Math.max(0, Math.min(data.length - 1, idx))`. -/
def hoverClamped (len : Nat) (r : ℚ) : Int :=
  max 0 (min ((len : Int) - 1) (hoverIdx len r))

/-! ## Backend importer, modelled from the spec

The FastAPI backend (`backend/app`: `utils.parse_csv_transactions`,
`routes/transactions.import_transactions`, `_execute_bulk_create`) is not in
the available source tree; the definitions below are modelled from the
specification's §3-§8 and from `.github/copilot-instructions.md`. -/

/-- A calendar date, timezone-naive. -/
structure Date where
  year : Nat
  month : Nat
  day : Nat
  deriving DecidableEq, Repr

/-- Value of a decimal digit character, `none` on a non-digit. -/
def digitVal (c : Char) : Option Nat :=
  if c.isDigit then some (c.toNat - 48) else none

/-- Parse exactly two decimal digits. -/
def parse2 : List Char → Option Nat
  | [a, b] =>
    match digitVal a, digitVal b with
    | some x, some y => some (10 * x + y)
    | _, _ => none
  | _ => none

/-- Parse exactly four decimal digits. -/
def parse4 : List Char → Option Nat
  | [a, b, c, d] =>
    match parse2 [a, b], parse2 [c, d] with
    | some h, some l => some (100 * h + l)
    | _, _ => none
  | _ => none

/-- Modelled from the spec: the day/month range check done by each date
format before a parse is accepted (§4.1 step 3). -/
def mkDate (d m y : Nat) : Option Date :=
  if 1 ≤ d ∧ d ≤ 31 ∧ 1 ≤ m ∧ m ≤ 12 then some ⟨y, m, d⟩ else none

/-- Modelled from the spec: the `DD/MM/YYYY` date format. -/
def parseDDMMYYYY (s : List Char) : Option Date :=
  match splitChar '/' s with
  | [p1, p2, p3] =>
    match parse2 p1, parse2 p2, parse4 p3 with
    | some d, some m, some y => mkDate d m y
    | _, _, _ => none
  | _ => none

/-- Modelled from the spec: the `MM/DD/YYYY` date format. -/
def parseMMDDYYYY (s : List Char) : Option Date :=
  match splitChar '/' s with
  | [p1, p2, p3] =>
    match parse2 p1, parse2 p2, parse4 p3 with
    | some m, some d, some y => mkDate d m y
    | _, _, _ => none
  | _ => none

/-- Modelled from the spec: the `YYYY-MM-DD` date format. -/
def parseYYYYMMDD (s : List Char) : Option Date :=
  match splitChar '-' s with
  | [p1, p2, p3] =>
    match parse4 p1, parse2 p2, parse2 p3 with
    | some y, some m, some d => mkDate d m y
    | _, _, _ => none
  | _ => none

/-- Modelled from the spec: the `DD-MM-YYYY` date format. -/
def parseDDMMYYYYDash (s : List Char) : Option Date :=
  match splitChar '-' s with
  | [p1, p2, p3] =>
    match parse2 p1, parse2 p2, parse4 p3 with
    | some d, some m, some y => mkDate d m y
    | _, _, _ => none
  | _ => none

/-- Modelled from the spec: date parsing tries the four supported formats in
the fixed fallback order `DD/MM/YYYY`, `MM/DD/YYYY`, `YYYY-MM-DD`,
`DD-MM-YYYY` (§4.1 step 3), returning `none` when all fail. -/
def parseDate (s : List Char) : Option Date :=
  (parseDDMMYYYY s).orElse fun _ =>
    (parseMMDDYYYY s).orElse fun _ =>
      (parseYYYYMMDD s).orElse fun _ =>
        parseDDMMYYYYDash s

/-- The decimal digit character for `n % 10`. -/
def digitChar (n : Nat) : Char := Char.ofNat (48 + n % 10)

/-- Two-digit zero-padded rendering of `n < 100`. -/
def render2 (n : Nat) : List Char := [digitChar (n / 10), digitChar n]

/-- Four-digit rendering of `n < 10000`. -/
def render4 (n : Nat) : List Char := render2 (n / 100) ++ render2 (n % 100)

/-- The `DD/MM/YYYY` rendering of a date. -/
def renderDDMMYYYY (dt : Date) : List Char :=
  render2 dt.day ++ '/' :: (render2 dt.month ++ '/' :: render4 dt.year)

/-- The `MM/DD/YYYY` rendering of a date. -/
def renderMMDDYYYY (dt : Date) : List Char :=
  render2 dt.month ++ '/' :: (render2 dt.day ++ '/' :: render4 dt.year)

/-- The `YYYY-MM-DD` rendering of a date. -/
def renderYYYYMMDD (dt : Date) : List Char :=
  render4 dt.year ++ '-' :: (render2 dt.month ++ '-' :: render2 dt.day)

/-- The `DD-MM-YYYY` rendering of a date. -/
def renderDDMMYYYYDash (dt : Date) : List Char :=
  render2 dt.day ++ '-' :: (render2 dt.month ++ '-' :: render4 dt.year)

/-- A date whose fields fit the textual formats: a plausible calendar day and
month and a four-digit year. -/
def Date.wf (dt : Date) : Prop :=
  1 ≤ dt.day ∧ dt.day ≤ 31 ∧ 1 ≤ dt.month ∧ dt.month ≤ 12 ∧
    1000 ≤ dt.year ∧ dt.year ≤ 9999

/-! ### Amount parsing, modelled from the spec (§4.1 step 4) -/

/-- Parse a nonempty all-digit string into a natural number. -/
def parseNatAux : List Char → Nat → Option Nat
  | [], acc => some acc
  | c :: rest, acc =>
    match digitVal c with
    | some v => parseNatAux rest (acc * 10 + v)
    | none => none

/-- Parse a nonempty string of decimal digits. -/
def parseNatDigits (s : List Char) : Option Nat :=
  if s.isEmpty then none else parseNatAux s 0

/-- Modelled from the spec: an unsigned decimal numeral, optionally with a
fractional part after a single dot. -/
def parseUnsigned (s : List Char) : Option ℚ :=
  match s.span (fun c => c ≠ '.') with
  | (intPart, []) => (parseNatDigits intPart).map fun n => (n : ℚ)
  | (intPart, _ :: fracPart) =>
    match parseNatDigits intPart, parseNatDigits fracPart with
    | some i, some f =>
      if fracPart.contains '.' then none
      else some ((i : ℚ) + (f : ℚ) / (10 : ℚ) ^ fracPart.length)
    | _, _ => none

/-- Modelled from the spec: amounts may carry an optional currency-symbol
prefix ("numbers with or without ₹"). -/
def stripCurrency (s : List Char) : List Char :=
  if s.head? = some '₹' then s.tail else s

/-- Modelled from the spec: amount text is a signed or unsigned numeric value
with an optional currency symbol prefix; anything else fails to parse. -/
def parseAmount (s : List Char) : Option ℚ :=
  let t := stripCurrency s
  if t.head? = some '-' then (parseUnsigned t.tail).map fun q => -q
  else parseUnsigned t

/-! ### Categorization, modelled from the spec (§4.1 step 5) -/

/-- Modelled from the spec: the static keyword-to-category lookup table,
an ordered list of (lower-case keyword, category) rules; the spec names
"uber" → Transportation and "amazon" → Shopping as entries. -/
def keywordTable : List (List Char × String) :=
  [("uber".data, "Transportation"),
   ("amazon".data, "Shopping"),
   ("swiggy".data, "Food & Dining"),
   ("zomato".data, "Food & Dining"),
   ("netflix".data, "Entertainment"),
   ("electricity".data, "Bills & Utilities"),
   ("salary".data, "Income")]

/-- Modelled from the spec: category assignment.  A row that already
specifies a category keeps it; otherwise the description/merchant text is
lower-cased and the first keyword it contains decides the category, with
default "Other" when no keyword matches. -/
def categorize (explicitCat : Option String) (description merchant : List Char) :
    String :=
  match explicitCat with
  | some c => c
  | none =>
    let text := toLowerList (description ++ ' ' :: merchant)
    match keywordTable.find? fun p => decide (p.1 <:+: text) with
    | some p => p.2
    | none => "Other"

/-! ### Rows, transactions and the import run, modelled from the spec -/

/-- Transaction type: expense or income. -/
inductive TxType where
  | expense
  | income
  deriving DecidableEq, Repr

/-- Modelled from the spec: the amount columns of a normalized row — either
the bank-statement pair of Debit/Credit text columns or the generic single
amount column (§4.1 steps 2 and 4). -/
inductive AmountCols where
  | bank (debit credit : List Char)
  | generic (amount : List Char)
  deriving DecidableEq, Repr

/-- Modelled from the spec: the internal row shape both header schemas are
normalized into (§4.1 step 2). -/
structure RawRow where
  dateText : List Char
  amount : AmountCols
  description : List Char
  merchant : List Char
  category : Option String
  paymentMethod : List Char
  deriving DecidableEq, Repr

/-- Modelled from the spec: amount resolution (§4.1 step 4).  For the
bank-statement schema the signed amount comes from the Debit xor Credit
column (Debit → expense, Credit → income); a row with both columns empty or
with unparseable text is a row-level failure.  For the generic schema the
single column is parsed (optional sign and currency symbol) and stored as a
positive expense amount. -/
def resolveAmount : AmountCols → Except String (TxType × ℚ)
  | .bank debit credit =>
    if debit ≠ [] then
      match parseAmount debit with
      | some a => .ok (.expense, a)
      | none => .error "Invalid debit amount"
    else if credit ≠ [] then
      match parseAmount credit with
      | some a => .ok (.income, a)
      | none => .error "Invalid credit amount"
    else
      .error "Missing amount"
  | .generic amt =>
    match parseAmount amt with
    | some a => .ok (.expense, |a|)
    | none => .error "Invalid amount"

/-- A normalized, fully parsed row ready for persistence. -/
structure NormRow where
  date : Date
  amount : ℚ
  txType : TxType
  description : List Char
  merchant : List Char
  category : String
  paymentMethod : List Char
  deriving DecidableEq, Repr

/-- Modelled from the spec: per-row normalization — date parsing, amount
resolution and category assignment; the first failing step yields the
row-level error message (§4.1 steps 3-5, §7). -/
def parseRow (r : RawRow) : Except String NormRow :=
  match parseDate r.dateText with
  | none => .error "Invalid date format"
  | some d =>
    match resolveAmount r.amount with
    | .error e => .error e
    | .ok (ty, a) =>
      .ok { date := d
            amount := a
            txType := ty
            description := r.description
            merchant := r.merchant
            category := categorize r.category r.description r.merchant
            paymentMethod := r.paymentMethod }

/-- A persisted transaction record. -/
structure Transaction where
  user : String
  amount : ℚ
  date : Date
  description : List Char
  merchant : List Char
  category : String
  txType : TxType
  paymentMethod : List Char
  deriving DecidableEq, Repr

/-- The transaction built from a normalized row for a target user. -/
def mkTxn (user : String) (n : NormRow) : Transaction :=
  { user := user
    amount := n.amount
    date := n.date
    description := n.description
    merchant := n.merchant
    category := n.category
    txType := n.txType
    paymentMethod := n.paymentMethod }

/-- Modelled from the spec and `.github/copilot-instructions.md` line 17:
duplicates are matched on `user_id + amount + date + description` — a
normalized row is a duplicate exactly when some stored transaction agrees
with it on those four fields, and on nothing else. -/
def isDuplicate (store : List Transaction) (user : String) (n : NormRow) :
    Bool :=
  store.any fun t =>
    decide (t.user = user ∧ t.amount = n.amount ∧ t.date = n.date ∧
      t.description = n.description)

/-- Per-row classification outcome (§4.1, §7). -/
inductive RowOutcome where
  | success (t : Transaction)
  | duplicate
  | failure (msg : String)
  deriving DecidableEq, Repr

/-- Modelled from the spec: insertion of an already-normalized row (§4.1
step 6-7).  With duplicate-skipping enabled a four-field match is counted as
a duplicate and not inserted; otherwise the row is inserted (again). -/
def insertRow (store : List Transaction) (user : String) (skipDup : Bool)
    (n : NormRow) : RowOutcome × List Transaction :=
  if skipDup ∧ isDuplicate store user n then
    (.duplicate, store)
  else
    (.success (mkTxn user n), store ++ [mkTxn user n])

/-- Modelled from the spec: processing of one raw row — normalization
followed by duplicate-checked insertion; failures leave the store unchanged. -/
def processRow (store : List Transaction) (user : String) (skipDup : Bool)
    (r : RawRow) : RowOutcome × List Transaction :=
  match parseRow r with
  | .error e => (.failure e, store)
  | .ok n => insertRow store user skipDup n

/-- The empty result a run starts from. -/
def emptyResult : ImportResult :=
  { total_rows := 0
    successful_imports := 0
    failed_imports := 0
    errors := []
    duplicate_count := 0
    imported_transactions := [] }

/-- Modelled from the spec: the import run (§4.1, §8).  Rows are processed
sequentially against a growing store; every row is independently classified
as success, duplicate or failure, and the result carries the complete tally
plus one error message per failed row and the created transaction
descriptions. -/
def runImport (user : String) (skipDup : Bool) :
    List Transaction → List RawRow → ImportResult × List Transaction
  | store, [] => (emptyResult, store)
  | store, r :: rest =>
    match processRow store user skipDup r with
    | (.success t, store') =>
      let (res, st) := runImport user skipDup store' rest
      ({ res with
          total_rows := res.total_rows + 1
          successful_imports := res.successful_imports + 1
          imported_transactions := t.description :: res.imported_transactions },
       st)
    | (.duplicate, store') =>
      let (res, st) := runImport user skipDup store' rest
      ({ res with
          total_rows := res.total_rows + 1
          duplicate_count := res.duplicate_count + 1 }, st)
    | (.failure e, store') =>
      let (res, st) := runImport user skipDup store' rest
      ({ res with
          total_rows := res.total_rows + 1
          failed_imports := res.failed_imports + 1
          errors := e :: res.errors }, st)

/-! ### Concrete fixtures used by witness statements -/

/-- A demonstration calendar date. -/
def demoDate : Date := ⟨2025, 9, 5⟩

/-- A demonstration normalized row. -/
def demoRow : NormRow :=
  { date := demoDate
    amount := 250
    txType := .expense
    description := "UBER TRIP 482".data
    merchant := []
    category := "Transportation"
    paymentMethod := "UPI".data }

/-- The transaction created from `demoRow`. -/
def demoTxn : Transaction := mkTxn "demo-user" demoRow

/-- A demonstration raw bank-statement row. -/
def demoRawRow : RawRow :=
  { dateText := "05/09/2025".data
    amount := .bank "250.00".data []
    description := "UBER TRIP 482".data
    merchant := []
    category := none
    paymentMethod := "UPI".data }

/-! ## Lemmas -/

theorem lastIdxAux_eq_none {c : Char} {s : List Char} :
    lastIdxAux c s = none ↔ c ∉ s := by
  induction s with
  | nil => simp [lastIdxAux]
  | cons a rest ih =>
    simp only [lastIdxAux]
    cases h : lastIdxAux c rest with
    | some i => simp [List.mem_cons, ih.symm, h]
    | none =>
      rcases ih.mp h with hne
      by_cases ha : a = c
      · simp [ha, List.mem_cons]
      · simp only [ha, if_false, List.mem_cons, true_iff]
        push_neg
        exact ⟨fun hh => ha hh.symm, hne⟩

theorem char_toLower_eq_dot {c : Char} (h : c.toLower = '.') : c = '.' := by
  simp only [Char.toLower] at h
  by_cases hc : c.toNat ≥ 65 ∧ c.toNat ≤ 90
  · exfalso
    rw [if_pos hc] at h
    have hv : Nat.isValidChar (c.toNat + 32) := Or.inl (by omega)
    have h46 : (Char.ofNat (c.toNat + 32)).toNat = c.toNat + 32 := by
      unfold Char.ofNat
      rw [dif_pos hv]
      rfl
    rw [h] at h46
    have hdot : ('.' : Char).toNat = 46 := by decide
    omega
  · rwa [if_neg hc] at h

theorem dot_mem_toLowerList {s : List Char} (h : '.' ∈ toLowerList s) :
    '.' ∈ s := by
  rcases List.mem_map.mp h with ⟨c, hc, hlow⟩
  rwa [char_toLower_eq_dot hlow] at hc

theorem fileExtension_of_idx {name : List Char} {i : Nat}
    (h : lastIdxAux '.' name = some i) :
    fileExtension name = toLowerList (name.drop i) := by
  simp [fileExtension, jsSubstringFrom, jsLastIndexOf, h, toLowerList,
    List.map_drop]

theorem fileExtension_no_dot {name : List Char} (h : '.' ∉ name) :
    fileExtension name = toLowerList name := by
  simp [fileExtension, jsSubstringFrom, jsLastIndexOf, lastIdxAux_eq_none.mpr h]

theorem dot_mem_validTypes : ∀ v ∈ validTypes, '.' ∈ v := by decide

theorem digitChar_mod (n : Nat) : digitChar n = digitChar (n % 10) := by
  unfold digitChar
  congr 1
  omega

theorem digitVal_digitChar (n : Nat) :
    digitVal (digitChar n) = some (n % 10) := by
  rw [digitChar_mod]
  have hb : ∀ k, k < 10 → digitVal (digitChar k) = some k := by decide
  have h10 : n % 10 < 10 := Nat.mod_lt _ (by norm_num)
  rw [hb (n % 10) h10]

theorem parse2_render2 {n : Nat} (h : n < 100) :
    parse2 (render2 n) = some n := by
  simp [render2, parse2, digitVal_digitChar]
  omega

theorem parse4_render4 {n : Nat} (h : n < 10000) :
    parse4 (render4 n) = some n := by
  simp [render4, render2, parse4, parse2, digitVal_digitChar]
  omega

theorem parse4_render2 (n : Nat) : parse4 (render2 n) = none := by
  simp [render2, parse4]

theorem digitChar_ne {c : Char} (hc : ∀ k, k < 10 → digitChar k ≠ c)
    (n : Nat) : digitChar n ≠ c := by
  rw [digitChar_mod]
  exact hc _ (Nat.mod_lt _ (by norm_num))

theorem notMem_render2 {c : Char} (hc : ∀ k, k < 10 → digitChar k ≠ c)
    (n : Nat) : c ∉ render2 n := by
  intro hmem
  simp only [render2, List.mem_cons, List.not_mem_nil, or_false] at hmem
  rcases hmem with h | h
  · exact digitChar_ne hc _ h.symm
  · exact digitChar_ne hc _ h.symm

theorem notMem_render4 {c : Char} (hc : ∀ k, k < 10 → digitChar k ≠ c)
    (n : Nat) : c ∉ render4 n := by
  intro hmem
  rcases List.mem_append.mp hmem with h | h
  · exact notMem_render2 hc _ h
  · exact notMem_render2 hc _ h

theorem digitChar_ne_slash : ∀ k, k < 10 → digitChar k ≠ '/' := by decide

theorem digitChar_ne_dash : ∀ k, k < 10 → digitChar k ≠ '-' := by decide

theorem splitChar_of_notMem {sep : Char} {l : List Char} (h : sep ∉ l) :
    splitChar sep l = [l] := by
  induction l with
  | nil => rfl
  | cons c rest ih =>
    have hc : c ≠ sep := fun hh => h (hh ▸ List.mem_cons_self c rest)
    have hr : sep ∉ rest := fun hh => h (List.mem_cons_of_mem _ hh)
    simp [splitChar, hc, ih hr]

theorem splitChar_append {sep : Char} {l : List Char} (h : sep ∉ l)
    (rest : List Char) :
    splitChar sep (l ++ sep :: rest) = l :: splitChar sep rest := by
  induction l with
  | nil => simp [splitChar]
  | cons c l' ih =>
    have hc : c ≠ sep := fun hh => h (hh ▸ List.mem_cons_self c l')
    have hl : sep ∉ l' := fun hh => h (List.mem_cons_of_mem _ hh)
    simp [splitChar, hc, ih hl]

theorem slash_notMem_renderYYYYMMDD (dt : Date) :
    '/' ∉ renderYYYYMMDD dt := by
  intro hmem
  rw [renderYYYYMMDD] at hmem
  rcases List.mem_append.mp hmem with h | h
  · exact notMem_render4 digitChar_ne_slash _ h
  · rcases List.mem_cons.mp h with h | h
    · exact absurd h (by decide)
    · rcases List.mem_append.mp h with h | h
      · exact notMem_render2 digitChar_ne_slash _ h
      · rcases List.mem_cons.mp h with h | h
        · exact absurd h (by decide)
        · exact notMem_render2 digitChar_ne_slash _ h

theorem slash_notMem_renderDDMMYYYYDash (dt : Date) :
    '/' ∉ renderDDMMYYYYDash dt := by
  intro hmem
  rw [renderDDMMYYYYDash] at hmem
  rcases List.mem_append.mp hmem with h | h
  · exact notMem_render2 digitChar_ne_slash _ h
  · rcases List.mem_cons.mp h with h | h
    · exact absurd h (by decide)
    · rcases List.mem_append.mp h with h | h
      · exact notMem_render2 digitChar_ne_slash _ h
      · rcases List.mem_cons.mp h with h | h
        · exact absurd h (by decide)
        · exact notMem_render4 digitChar_ne_slash _ h

theorem parseSlash_of_noSlash {s : List Char} (h : '/' ∉ s) :
    parseDDMMYYYY s = none ∧ parseMMDDYYYY s = none := by
  constructor
  · rw [parseDDMMYYYY, splitChar_of_notMem h]
  · rw [parseMMDDYYYY, splitChar_of_notMem h]

theorem parseDDMMYYYY_round (dt : Date) (h : dt.wf) :
    parseDDMMYYYY (renderDDMMYYYY dt) = some dt := by
  obtain ⟨h1, h2, h3, h4, h5, h6⟩ := h
  rw [parseDDMMYYYY, renderDDMMYYYY,
    splitChar_append (notMem_render2 digitChar_ne_slash _),
    splitChar_append (notMem_render2 digitChar_ne_slash _),
    splitChar_of_notMem (notMem_render4 digitChar_ne_slash _)]
  simp [parse2_render2 (show dt.day < 100 by omega),
    parse2_render2 (show dt.month < 100 by omega),
    parse4_render4 (show dt.year < 10000 by omega), mkDate, h1, h2, h3, h4]

theorem parseYYYYMMDD_round (dt : Date) (h : dt.wf) :
    parseYYYYMMDD (renderYYYYMMDD dt) = some dt := by
  obtain ⟨h1, h2, h3, h4, h5, h6⟩ := h
  rw [parseYYYYMMDD, renderYYYYMMDD,
    splitChar_append (notMem_render4 digitChar_ne_dash _),
    splitChar_append (notMem_render2 digitChar_ne_dash _),
    splitChar_of_notMem (notMem_render2 digitChar_ne_dash _)]
  simp [parse2_render2 (show dt.day < 100 by omega),
    parse2_render2 (show dt.month < 100 by omega),
    parse4_render4 (show dt.year < 10000 by omega), mkDate, h1, h2, h3, h4]

theorem parseDDMMYYYYDash_round (dt : Date) (h : dt.wf) :
    parseDDMMYYYYDash (renderDDMMYYYYDash dt) = some dt := by
  obtain ⟨h1, h2, h3, h4, h5, h6⟩ := h
  rw [parseDDMMYYYYDash, renderDDMMYYYYDash,
    splitChar_append (notMem_render2 digitChar_ne_dash _),
    splitChar_append (notMem_render2 digitChar_ne_dash _),
    splitChar_of_notMem (notMem_render4 digitChar_ne_dash _)]
  simp [parse2_render2 (show dt.day < 100 by omega),
    parse2_render2 (show dt.month < 100 by omega),
    parse4_render4 (show dt.year < 10000 by omega), mkDate, h1, h2, h3, h4]

theorem parseYYYYMMDD_renderDash (dt : Date) :
    parseYYYYMMDD (renderDDMMYYYYDash dt) = none := by
  rw [parseYYYYMMDD, renderDDMMYYYYDash,
    splitChar_append (notMem_render2 digitChar_ne_dash _),
    splitChar_append (notMem_render2 digitChar_ne_dash _),
    splitChar_of_notMem (notMem_render4 digitChar_ne_dash _)]
  simp [parse4_render2]

/-! ## Claim theorems -/

/-- Claim C2: a file chosen in the import UI is accepted exactly when the
lower-cased suffix of its name starting at the last dot is one of `.csv`,
`.xlsx`, `.xls`; a name with no dot is always rejected; on rejection the
selected-file state is left unchanged; the check is a function of the file
name alone. -/
theorem file_select_extension_allowlist (name : List Char) (st : SelectState) :
    (acceptFile name = true ↔
      ∃ i : Nat, lastIdxAux '.' name = some i ∧
        toLowerList (name.drop i) ∈ validTypes) ∧
    ('.' ∉ name → acceptFile name = false) ∧
    (acceptFile name = false → handleFileSelect st name = st) ∧
    (acceptFile name = true →
      handleFileSelect st name =
        { selectedFile := some name, importResultCleared := true }) := by
  have hnodot : '.' ∉ name → acceptFile name = false := by
    intro hno
    rw [acceptFile, fileExtension_no_dot hno]
    rw [Bool.eq_false_iff]
    intro hc
    exact hno (dot_mem_toLowerList (dot_mem_validTypes _ (List.elem_iff.mp hc)))
  refine ⟨?_, hnodot, ?_, ?_⟩
  · cases h : lastIdxAux '.' name with
    | none =>
      have hno : '.' ∉ name := lastIdxAux_eq_none.mp h
      rw [hnodot hno]
      simp
    | some i =>
      rw [acceptFile, fileExtension_of_idx h]
      constructor
      · intro hc
        exact ⟨i, rfl, List.elem_iff.mp hc⟩
      · rintro ⟨j, hj, hmem⟩
        obtain rfl : i = j := Option.some.inj hj
        exact List.elem_iff.mpr hmem
  · intro hrej
    simp [handleFileSelect, hrej]
  · intro hacc
    simp [handleFileSelect, hacc]

/-- Witness for C2 at concrete inputs: `Report.XLSX` is accepted (its
lower-cased suffix from the last dot is `.xlsx`), and a dotless name is
rejected leaving the state unchanged. -/
theorem file_select_extension_allowlist_witness :
    acceptFile "Report.XLSX".data = true ∧
    handleFileSelect ⟨none, false⟩ "README".data = ⟨none, false⟩ := by
  constructor
  · exact (file_select_extension_allowlist "Report.XLSX".data
      ⟨none, false⟩).1.mpr ⟨6, by decide, by decide⟩
  · exact (file_select_extension_allowlist "README".data ⟨none, false⟩).2.2.1
      ((file_select_extension_allowlist "README".data ⟨none, false⟩).2.1
        (by decide))

/-- Counterexample to claim C3: the header row of the sample CSV offered by
`downloadSampleCSV` is not the bank-statement header set — it has six columns
beginning with `Date`, not seven beginning with `Tran Date`. -/
theorem sample_csv_header_not_bank : sampleHeader ≠ bankHeaders := by decide

/-- Claim C3 (amended): the sample file offered for download by the import
page is a static CSV in the generic schema — its header row consists exactly
of the generic header set (Date, Amount, Description, Merchant, Category,
Payment Method) — not the bank-statement schema. -/
theorem sample_csv_header_generic :
    (∀ h ∈ sampleHeader, h ∈ genericHeaders) ∧
    (∀ h ∈ genericHeaders, h ∈ sampleHeader) ∧
    sampleHeader.length = 6 := by decide

/-- Claim C9: when the import request is rejected, the page displays a
synthesized `ImportResult` with `total_rows = 0`, `successful_imports = 0`,
`failed_imports = 1`, `duplicate_count = 0`, no imported transactions and a
single error message — the server's detail string when it is a nonempty
string, otherwise the fixed fallback text — and `onImportComplete` is not
invoked. -/
theorem import_error_synthesized_result (d : Option String) :
    handleImportOutcome (.err d) =
      ({ total_rows := 0
         successful_imports := 0
         failed_imports := 1
         errors := [jsOrFallback d]
         duplicate_count := 0
         imported_transactions := [] }, false) ∧
    (∀ s, s ≠ "" → jsOrFallback (some s) = s) ∧
    jsOrFallback none = importFailedText := by
  refine ⟨rfl, fun s hs => ?_, rfl⟩
  simp [jsOrFallback, hs]

/-- Witness for C9: a concrete rejected request carrying the server detail
string `no user` produces exactly that one error message. -/
theorem import_error_synthesized_result_witness :
    jsOrFallback (some "no user") = "no user" :=
  (import_error_synthesized_result none).2.1 "no user" (by decide)

/-- Claim C10: for a nonempty data list the `LineChart` computations are
safe — the vertical-scale divisor is at least 1 (hence nonzero), and the
clamped hover index lies in `[0, data.length - 1]`, so indexing the `xy`
point array with it is in bounds. -/
theorem linechart_divisor_and_index_safe (data : List TrendPoint) (height r : ℚ)
    (hne : data ≠ []) :
    1 ≤ chartRange (data.map TrendPoint.amount) ∧
    chartRange (data.map TrendPoint.amount) ≠ 0 ∧
    0 ≤ hoverClamped data.length r ∧
    (hoverClamped data.length r).toNat < (xyPoints height data).length := by
  have hlen : 1 ≤ data.length := List.length_pos.mpr hne
  have hrange : 1 ≤ chartRange (data.map TrendPoint.amount) :=
    le_max_left 1 _
  refine ⟨hrange, by positivity, le_max_left 0 _, ?_⟩
  have hxy : (xyPoints height data).length = data.length := by
    simp [xyPoints, List.enum_length]
  rw [hxy]
  have hub : hoverClamped data.length r ≤ (data.length : Int) - 1 := by
    apply max_le
    · omega
    · exact min_le_left _ _
  omega

/-- Witness for C10 at concrete inputs: a two-point data list with equal
amounts (so `max - min = 0`) and an off-scale mouse ratio. -/
theorem linechart_divisor_and_index_safe_witness :
    ([⟨"2024-01-15".data, 100⟩, ⟨"2024-01-16".data, 100⟩] : List TrendPoint)
        ≠ [] ∧
    1 ≤ chartRange
      (([⟨"2024-01-15".data, 100⟩, ⟨"2024-01-16".data, 100⟩] :
        List TrendPoint).map TrendPoint.amount) ∧
    (hoverClamped 2 (7 : ℚ)).toNat <
      (xyPoints 160
        [⟨"2024-01-15".data, 100⟩, ⟨"2024-01-16".data, 100⟩]).length := by
  have h := linechart_divisor_and_index_safe
    [⟨"2024-01-15".data, 100⟩, ⟨"2024-01-16".data, 100⟩] 160 7 (by decide)
  exact ⟨by decide, h.1, h.2.2.2⟩

/-- Claim C1: with duplicate-skipping enabled a normalized row matching an
already-stored transaction of the same user on (user, amount, date,
description) is classified duplicate and not inserted; with it disabled the
row is inserted again; and duplication is decided by equality on exactly
those four fields — a stored transaction triggers it whatever its other
fields are, and the check ignores the row's other fields. -/
theorem dedup_four_field_rule (store : List Transaction) (user : String)
    (n n' : NormRow) :
    (isDuplicate store user n = true ↔
      ∃ t ∈ store, t.user = user ∧ t.amount = n.amount ∧ t.date = n.date ∧
        t.description = n.description) ∧
    (isDuplicate store user n = true →
      insertRow store user true n = (.duplicate, store)) ∧
    (insertRow store user false n =
      (.success (mkTxn user n), store ++ [mkTxn user n])) ∧
    (n'.amount = n.amount → n'.date = n.date → n'.description = n.description →
      isDuplicate store user n' = isDuplicate store user n) := by
  refine ⟨?_, ?_, ?_, ?_⟩
  · simp [isDuplicate, List.any_eq_true]
  · intro h
    simp [insertRow, h]
  · simp [insertRow]
  · intro h1 h2 h3
    simp [isDuplicate, h1, h2, h3]

/-- Witness for C1: a store holding exactly the transaction created from
`demoRow` makes re-processing `demoRow` a duplicate that is not inserted. -/
theorem dedup_four_field_rule_witness :
    insertRow [demoTxn] "demo-user" true demoRow = (.duplicate, [demoTxn]) :=
  (dedup_four_field_rule [demoTxn] "demo-user" demoRow demoRow).2.1 (by decide)

/-- Claim C4: no row aborts the import — every row is independently
classified, and the returned result always carries the complete tally:
`total_rows` equals the number of rows, the success/duplicate/failure counts
sum to it, there is one error message per failed row, and one created
transaction summary per successful row. -/
theorem import_complete_tally (user : String) (skipDup : Bool)
    (store : List Transaction) (rows : List RawRow) :
    ((runImport user skipDup store rows).1).total_rows = rows.length ∧
    ((runImport user skipDup store rows).1).successful_imports +
        ((runImport user skipDup store rows).1).duplicate_count +
        ((runImport user skipDup store rows).1).failed_imports = rows.length ∧
    ((runImport user skipDup store rows).1).errors.length =
      ((runImport user skipDup store rows).1).failed_imports ∧
    ((runImport user skipDup store rows).1).imported_transactions.length =
      ((runImport user skipDup store rows).1).successful_imports := by
  induction rows generalizing store with
  | nil => simp [runImport, emptyResult]
  | cons r rest ih =>
    rcases hp : processRow store user skipDup r with ⟨outcome, store'⟩
    have hrec := ih store'
    rcases hr : runImport user skipDup store' rest with ⟨res, st⟩
    rw [hr] at hrec
    dsimp only at hrec
    cases outcome with
    | success t =>
      simp only [runImport, hp, hr, List.length_cons]
      refine ⟨by omega, by omega, hrec.2.2.1, ?_⟩
      simp [hrec.2.2.2]
    | duplicate =>
      simp only [runImport, hp, hr, List.length_cons]
      exact ⟨by omega, by omega, hrec.2.2.1, hrec.2.2.2⟩
    | failure e =>
      simp only [runImport, hp, hr, List.length_cons]
      refine ⟨by omega, by omega, ?_, hrec.2.2.2⟩
      simp [hrec.2.2.1]

/-- Claim C5: for a bank-statement row with exactly one of the Debit and
Credit columns populated, the resolved transaction is an expense with the
Debit amount when Debit is populated and an income with the Credit amount
when Credit is populated, both at the amount-resolution step and on the
fully parsed row. -/
theorem bank_debit_credit_rule (debit credit : List Char) (a : ℚ)
    (r : RawRow) (d : Date) :
    (debit ≠ [] → credit = [] → parseAmount debit = some a →
      resolveAmount (.bank debit credit) = .ok (.expense, a)) ∧
    (debit = [] → credit ≠ [] → parseAmount credit = some a →
      resolveAmount (.bank debit credit) = .ok (.income, a)) ∧
    (r.amount = .bank debit credit → parseDate r.dateText = some d →
      debit ≠ [] → credit = [] → parseAmount debit = some a →
      ∃ n, parseRow r = .ok n ∧ n.txType = .expense ∧ n.amount = a) ∧
    (r.amount = .bank debit credit → parseDate r.dateText = some d →
      debit = [] → credit ≠ [] → parseAmount credit = some a →
      ∃ n, parseRow r = .ok n ∧ n.txType = .income ∧ n.amount = a) := by
  have hdeb : debit ≠ [] → parseAmount debit = some a →
      resolveAmount (.bank debit credit) = .ok (.expense, a) := by
    intro hne hpa
    simp [resolveAmount, hne, hpa]
  have hcred : debit = [] → credit ≠ [] → parseAmount credit = some a →
      resolveAmount (.bank debit credit) = .ok (.income, a) := by
    intro hd hne hpa
    simp [resolveAmount, hd, hne, hpa]
  refine ⟨fun hne _ hpa => hdeb hne hpa, hcred, ?_, ?_⟩
  · intro hamt hdate hne _ hpa
    refine ⟨{ date := d, amount := a, txType := .expense,
              description := r.description, merchant := r.merchant,
              category := categorize r.category r.description r.merchant,
              paymentMethod := r.paymentMethod }, ?_, rfl, rfl⟩
    simp [parseRow, hdate, hamt, hdeb hne hpa]
  · intro hamt hdate hd hne hpa
    refine ⟨{ date := d, amount := a, txType := .income,
              description := r.description, merchant := r.merchant,
              category := categorize r.category r.description r.merchant,
              paymentMethod := r.paymentMethod }, ?_, rfl, rfl⟩
    simp [parseRow, hdate, hamt, hcred hd hne hpa]

/-- Witness for C5: the concrete bank row with Debit `250.00` and empty
Credit resolves to an expense of 250. -/
theorem bank_debit_credit_rule_witness :
    resolveAmount (.bank "250.00".data []) = .ok (.expense, 250) :=
  (bank_debit_credit_rule "250.00".data [] 250 demoRawRow demoDate).1
    (by decide) rfl
    (by simp [parseAmount, stripCurrency, parseUnsigned, List.span,
          List.span.loop, parseNatDigits, parseNatAux, digitVal])

/-- Claim C7: category assignment for a row without an explicit category is a
case-insensitive keyword lookup on the description/merchant text — the
description `UBER TRIP 482` is classified Transportation, a text containing
no keyword of the table is assigned the default `Other` (so `Mystery Vendor
XYZ` gets `Other`), and an explicit category is kept as-is. -/
theorem keyword_categorization (desc mer : List Char) :
    categorize none "UBER TRIP 482".data [] = "Transportation" ∧
    categorize none "Mystery Vendor XYZ".data [] = "Other" ∧
    (∀ c, categorize (some c) desc mer = c) ∧
    ((∀ p ∈ keywordTable, ¬ (p.1 <:+: toLowerList (desc ++ ' ' :: mer))) →
      categorize none desc mer = "Other") := by
  refine ⟨by decide, by decide, fun c => rfl, fun hno => ?_⟩
  have hfind : keywordTable.find?
      (fun p => decide (p.1 <:+: toLowerList (desc ++ ' ' :: mer))) = none := by
    rw [List.find?_eq_none]
    intro p hp
    simpa using hno p hp
  simp [categorize, hfind]

/-- Witness for C7: the description `Mystery Vendor XYZ` with empty merchant
text contains no keyword, so the default `Other` clause applies. -/
theorem keyword_categorization_witness :
    categorize none "Mystery Vendor XYZ".data [] = "Other" :=
  (keyword_categorization "Mystery Vendor XYZ".data []).2.2.2 (by decide)

/-- Counterexample to claim C6: `09/05/2025` is the `MM/DD/YYYY` rendering of
September 5, 2025, yet the fixed fallback order tries `DD/MM/YYYY` first, so
it parses to May 9, 2025 — a different calendar date.  Not every supported
rendering of a date parses back to that date. -/
theorem date_mmdd_rendering_disagrees :
    renderMMDDYYYY ⟨2025, 9, 5⟩ = "09/05/2025".data ∧
    parseDate "09/05/2025".data = some ⟨2025, 5, 9⟩ ∧
    ((⟨2025, 5, 9⟩ : Date) ≠ ⟨2025, 9, 5⟩) := by
  refine ⟨by decide, by decide, by decide⟩

/-- Claim C6 (amended): for every well-formed calendar date, the
`DD/MM/YYYY`, `YYYY-MM-DD` and `DD-MM-YYYY` renderings all parse back — in
the fixed fallback order — to that same date (the `MM/DD/YYYY` rendering may
be captured first by the `DD/MM/YYYY` format when the day is at most 12);
and a date text matching none of the formats yields a row-level failure
while the rest of the batch is still processed. -/
theorem date_format_agreement (dt : Date) (h : dt.wf) (r : RawRow)
    (store : List Transaction) (user : String) (skipDup : Bool)
    (rest : List RawRow) :
    parseDate (renderDDMMYYYY dt) = some dt ∧
    parseDate (renderYYYYMMDD dt) = some dt ∧
    parseDate (renderDDMMYYYYDash dt) = some dt ∧
    (parseDate r.dateText = none →
      processRow store user skipDup r =
        (.failure "Invalid date format", store) ∧
      ((runImport user skipDup store (r :: rest)).1).failed_imports =
        ((runImport user skipDup store rest).1).failed_imports + 1 ∧
      ((runImport user skipDup store (r :: rest)).1).successful_imports =
        ((runImport user skipDup store rest).1).successful_imports) := by
  refine ⟨?_, ?_, ?_, ?_⟩
  · rw [parseDate, parseDDMMYYYY_round dt h]
    rfl
  · obtain ⟨hs1, hs2⟩ := parseSlash_of_noSlash (slash_notMem_renderYYYYMMDD dt)
    rw [parseDate, hs1, hs2, parseYYYYMMDD_round dt h]
    rfl
  · obtain ⟨hs1, hs2⟩ :=
      parseSlash_of_noSlash (slash_notMem_renderDDMMYYYYDash dt)
    rw [parseDate, hs1, hs2, parseYYYYMMDD_renderDash dt,
      parseDDMMYYYYDash_round dt h]
    rfl
  · intro hbad
    have hproc : processRow store user skipDup r =
        (.failure "Invalid date format", store) := by
      simp [processRow, parseRow, hbad]
    refine ⟨hproc, ?_, ?_⟩
    · simp only [runImport, hproc]
    · simp only [runImport, hproc]

/-- Witness for C6 (amended): at the concrete date September 5, 2025 the
three agreeing renderings parse back to it, and the unparseable date text
`garbage` makes the concrete row fail without affecting the store. -/
theorem date_format_agreement_witness :
    Date.wf ⟨2025, 9, 5⟩ ∧
    parseDate (renderDDMMYYYY ⟨2025, 9, 5⟩) = some ⟨2025, 9, 5⟩ ∧
    parseDate (renderYYYYMMDD ⟨2025, 9, 5⟩) = some ⟨2025, 9, 5⟩ ∧
    parseDate (renderDDMMYYYYDash ⟨2025, 9, 5⟩) = some ⟨2025, 9, 5⟩ ∧
    processRow [] "demo-user" true { demoRawRow with dateText := "garbage".data }
      = (.failure "Invalid date format", []) := by
  have h := date_format_agreement ⟨2025, 9, 5⟩ (by simp [Date.wf])
    { demoRawRow with dateText := "garbage".data } [] "demo-user" true []
  exact ⟨by simp [Date.wf], h.1, h.2.1, h.2.2.1, (h.2.2.2 (by decide)).1⟩

theorem isDuplicate_mono {store store₂ : List Transaction} {user : String}
    {n : NormRow} (hsub : ∀ t ∈ store, t ∈ store₂)
    (h : isDuplicate store user n = true) :
    isDuplicate store₂ user n = true := by
  rw [isDuplicate, List.any_eq_true] at h ⊢
  rcases h with ⟨t, ht, hp⟩
  exact ⟨t, hsub t ht, hp⟩

theorem isDuplicate_append_mkTxn (store : List Transaction) (user : String)
    (n : NormRow) :
    isDuplicate (store ++ [mkTxn user n]) user n = true := by
  rw [isDuplicate, List.any_eq_true]
  refine ⟨mkTxn user n, List.mem_append_right _ (List.mem_singleton.mpr rfl),
    ?_⟩
  simp [mkTxn]

theorem processRow_store_sub (store : List Transaction) (user : String)
    (skipDup : Bool) (r : RawRow) :
    ∀ t ∈ store, t ∈ (processRow store user skipDup r).2 := by
  intro t ht
  rw [processRow]
  cases hp : parseRow r with
  | error e => exact ht
  | ok n =>
    simp only [insertRow]
    split
    · exact ht
    · exact List.mem_append_left _ ht

theorem runImport_snd (user : String) (skipDup : Bool)
    (store : List Transaction) (r : RawRow) (rest : List RawRow) :
    (runImport user skipDup store (r :: rest)).2 =
      (runImport user skipDup (processRow store user skipDup r).2 rest).2 := by
  rcases hp : processRow store user skipDup r with ⟨outcome, store'⟩
  cases outcome <;> simp only [runImport, hp] <;>
    rcases hr : runImport user skipDup store' rest with ⟨res, st⟩ <;> rfl

theorem runImport_store_sub (user : String) (skipDup : Bool)
    (rows : List RawRow) :
    ∀ store : List Transaction, ∀ t ∈ store,
      t ∈ (runImport user skipDup store rows).2 := by
  induction rows with
  | nil =>
    intro store t ht
    simpa [runImport] using ht
  | cons r rest ih =>
    intro store t ht
    rw [runImport_snd]
    exact ih _ t (processRow_store_sub store user skipDup r t ht)

theorem runImport_keys (user : String) (rows : List RawRow) :
    ∀ store : List Transaction, ∀ r ∈ rows, ∀ n, parseRow r = .ok n →
      isDuplicate (runImport user true store rows).2 user n = true := by
  induction rows with
  | nil =>
    intro store r hr
    exact absurd hr (List.not_mem_nil r)
  | cons r0 rest ih =>
    intro store r hr n hn
    rcases hp : processRow store user true r0 with ⟨outcome, store'⟩
    have hsnd : (runImport user true store (r0 :: rest)).2 =
        (runImport user true store' rest).2 := by
      rw [runImport_snd, hp]
    rcases List.mem_cons.mp hr with rfl | hmem
    · have hkey : isDuplicate store' user n = true := by
        rw [processRow, hn] at hp
        simp only [insertRow] at hp
        by_cases hd : isDuplicate store user n = true
        · rw [if_pos ⟨trivial, hd⟩] at hp
          cases hp
          exact hd
        · rw [if_neg fun hc => hd hc.2] at hp
          cases hp
          exact isDuplicate_append_mkTxn store user n
      rw [hsnd]
      exact isDuplicate_mono (runImport_store_sub user true rest store') hkey
    · rw [hsnd]
      exact ih store' r hmem n hn

theorem runImport_all_dup (user : String) (rows : List RawRow) :
    ∀ store : List Transaction,
      (∀ r ∈ rows, ∀ n, parseRow r = .ok n →
        isDuplicate store user n = true) →
      ((runImport user true store rows).1).successful_imports = 0 ∧
      (runImport user true store rows).2 = store := by
  induction rows with
  | nil =>
    intro store _
    exact ⟨rfl, rfl⟩
  | cons r rest ih =>
    intro store hall
    have hrec := ih store fun r' hr' => hall r' (List.mem_cons_of_mem _ hr')
    rcases hres : runImport user true store rest with ⟨res, st⟩
    rw [hres] at hrec
    dsimp only at hrec
    cases hn : parseRow r with
    | error e =>
      have hp : processRow store user true r = (.failure e, store) := by
        simp [processRow, hn]
      simp only [runImport, hp, hres]
      exact hrec
    | ok n =>
      have hdup := hall r (List.mem_cons_self r rest) n hn
      have hp : processRow store user true r = (.duplicate, store) := by
        simp [processRow, hn, insertRow, hdup]
      simp only [runImport, hp, hres]
      exact hrec

/-- Claim C8: importing the exact same row batch twice in succession with
duplicate-skipping enabled is idempotent on the transaction store — the
second run creates zero successful imports and leaves the store exactly as
the first run left it. -/
theorem reimport_idempotent (user : String) (store : List Transaction)
    (rows : List RawRow) :
    ((runImport user true (runImport user true store rows).2 rows).1
      ).successful_imports = 0 ∧
    (runImport user true (runImport user true store rows).2 rows).2 =
      (runImport user true store rows).2 :=
  runImport_all_dup user rows (runImport user true store rows).2
    fun r hr n hn => runImport_keys user rows store r hr n hn

end SmartSpend
